import Mathlib

/-!
Verification development for the AVB rebuild tool (rebuild_avb.py).

The Python source is shallowly embedded below.  Dictionaries produced by the
metadata parser become structures whose fields are `Option String` (Python
`None` becomes `none`); descriptor dictionaries become an inductive type with
one variant per descriptor kind.  Subprocess invocations, filesystem probes
and the random-salt generator are abstracted into an `Env` oracle; every
invocation of the toolkit (`run_command`) is recorded in a trace.  Python
control flow that terminates the process (`sys.exit(1)`) or raises an
uncaught exception (TypeError / AttributeError / ValueError) is modelled by
an `Except Crash` result.
-/

namespace RebuildAvb

/-- Crash outcomes of the Python code: `sysExit` models `sys.exit(1)`,
the other variants model uncaught Python exceptions. -/
inductive Crash where
  | sysExit
  | typeError
  | attrError
  | valueError
  deriving DecidableEq, Repr

/-! ## Character-list string helpers (Python string operations) -/

/-- Python `s.startswith(p)` on explicit character lists. -/
def startsWithL : List Char → List Char → Bool
  | _, [] => true
  | [], _ :: _ => false
  | c :: cs, p :: ps => c == p && startsWithL cs ps

/-- Python `s.endswith(p)`. -/
def endsWithL (s p : List Char) : Bool :=
  startsWithL s.reverse p.reverse

/-- Python `p in s` (substring containment). -/
def containsL (s p : List Char) : Bool :=
  match s with
  | [] => startsWithL [] p
  | _ :: rest => startsWithL s p || containsL rest p

/-- Python `s.replace(old, new)`: replaces every occurrence, scanning left
to right.  Fuel-driven recursion; each step consumes at least one character
(the only call site has `old = ".img"`, which is non-empty), so fuel equal
to the string length is enough. -/
def replaceAllL (old new : List Char) : Nat → List Char → List Char
  | _, [] => []
  | 0, s => s
  | fuel + 1, c :: rest =>
    if startsWithL (c :: rest) old then
      new ++ replaceAllL old new fuel ((c :: rest).drop old.length)
    else c :: replaceAllL old new fuel rest

/-- Python `s.replace(old, new)` on `String`. -/
def pyReplace (s old new : String) : String :=
  String.mk (replaceAllL old.data new.data s.data.length s.data)

/-- Python `s.upper()` (ASCII; all strings handled by the tool are ASCII). -/
def pyUpper (s : String) : String :=
  String.mk (s.data.map Char.toUpper)

/-- Python `int(s)` for the digit strings produced by the parser's
`(\d+)` captures; a non-digit string raises ValueError. -/
def pyIntAux : List Char → Option Nat
  | [] => none
  | l => pyIntGo l 0
where
  pyIntGo : List Char → Nat → Option Nat
    | [], acc => some acc
    | c :: rest, acc =>
      if '0' ≤ c ∧ c ≤ '9' then pyIntGo rest (acc * 10 + (c.toNat - '0'.toNat))
      else none

/-- Python `int(s)`; ValueError on non-digit input. -/
def pyInt (s : String) : Except Crash Nat :=
  match pyIntAux s.data with
  | some n => Except.ok n
  | none => Except.error Crash.valueError

/-- `"0" * n` (Python string repetition). -/
def zeroStringOfLength (n : Nat) : String :=
  String.mk (List.replicate n '0')

/-- A string consisting entirely of `'0'` characters. -/
def allZeroDigits (s : String) : Bool :=
  s.data.all (fun c => c == '0')

/-! ## Data model: parsed image metadata (`parse_image_info` result dicts) -/

/-- A `Hash descriptor` dictionary (`_parse_hash_descriptor`).  Every field
is always present as a key; a regex that did not match yields `none`. -/
structure HashDesc where
  image_size : Option String
  hash_algorithm : Option String
  partition_name : Option String
  salt : Option String
  digest : Option String
  flags : Option String
  deriving DecidableEq, Repr

/-- A `Hashtree descriptor` dictionary (`_parse_hashtree_descriptor`). -/
structure HashtreeDesc where
  image_size : Option String
  hash_algorithm : Option String
  partition_name : Option String
  salt : Option String
  root_digest : Option String
  flags : Option String
  tree_offset : Option String
  tree_size : Option String
  data_block_size : Option String
  hash_block_size : Option String
  deriving DecidableEq, Repr

/-- A `Chain Partition descriptor` dictionary (`_parse_chain_descriptor`). -/
structure ChainDesc where
  partition_name : Option String
  rollback_index_location : Option String
  public_key_sha1 : Option String
  flags : Option String
  deriving DecidableEq, Repr

/-- A descriptor record tagged by `desc['type']`.  A `Prop` descriptor is
either `{key, value}` (regex matched) or the empty dict (`none`). -/
inductive Descriptor where
  | hash : HashDesc → Descriptor
  | hashtree : HashtreeDesc → Descriptor
  | chain : ChainDesc → Descriptor
  | prop : Option (String × String) → Descriptor
  deriving DecidableEq, Repr

/-- The dict returned by `parse_image_info` (all keys always present). -/
structure ImageInfo where
  algorithm : Option String
  rollback_index : Option String
  flags : Option String
  image_size : Option String
  original_image_size : Option String
  descriptors : List Descriptor
  deriving DecidableEq, Repr

/-- The `{'descriptors': []}` dict passed as `vbmeta_info` to the chained
partition rebuild (the other keys are never read there). -/
def emptyImageInfo : ImageInfo :=
  { algorithm := none, rollback_index := none, flags := none,
    image_size := none, original_image_size := none, descriptors := [] }

/-! ## Key selector (`AvbRebuilder.__init__`, `detect_required_key_type`,
`get_key_for_algorithm`) -/

/-- The fields of `AvbRebuilder` consulted by the key selector and the
command builders.  `private_key` is the explicit `--private-key` override
(`None` when auto-detection filled `available_keys`). -/
structure Rebuilder where
  avbtool_path : String
  private_key : Option String
  available_keys : List String
  deriving DecidableEq, Repr

/-- `PYTHON_EXECUTABLE` (modelled as the fallback literal). -/
def pythonExe : String := "python3"

/-- `detect_required_key_type`: maps the four recognized algorithm names to
a key strength and `sys.exit(1)`s on anything else (including `None`). -/
def detect_required_key_type (algorithm : Option String) : Except Crash String :=
  if algorithm = some "SHA256_RSA4096" ∨ algorithm = some "SHA512_RSA4096" then
    Except.ok "4096"
  else if algorithm = some "SHA256_RSA2048" ∨ algorithm = some "SHA512_RSA2048" then
    Except.ok "2048"
  else
    Except.error Crash.sysExit

/-- `get_key_for_algorithm`: note that `detect_required_key_type` runs
before the explicit-key check, so an unrecognized algorithm is fatal even
when `private_key` is set. -/
def get_key_for_algorithm (r : Rebuilder) (algorithm : Option String) :
    Except Crash String :=
  match detect_required_key_type algorithm with
  | Except.error c => Except.error c
  | Except.ok required_type =>
    match r.private_key with
    | some k => Except.ok k
    | none =>
      match r.available_keys.find?
          (fun kp => containsL kp.data ("rsa" ++ required_type).data) with
      | some kp => Except.ok kp
      | none => Except.error Crash.sysExit

/-! ## Partition classifier -/

/-- The classification condition of `rebuild_all` (line 469):
`current_info and current_info.get('algorithm') and
current_info['algorithm'] != 'NONE'`. -/
def classify_is_chained (current_info : Option ImageInfo) : Bool :=
  match current_info with
  | none => false
  | some info =>
    match info.algorithm with
    | none => false
    | some a => a ≠ "" && a ≠ "NONE"

/-- The identical classification condition of `rebuild_partition`
(lines 244-245). -/
def rebuild_partition_is_chained (current_info : Option ImageInfo) : Bool :=
  match current_info with
  | none => false
  | some info =>
    match info.algorithm with
    | none => false
    | some a => a ≠ "" && a ≠ "NONE"

/-! ## Metadata parser: the regular expressions of `AvbImageParser`

The patterns used by the source are all of one simple shape: literal text,
`\s+` gaps, and captured one-or-more / zero-or-more character-class runs,
where each class is disjoint from the character that must follow it.  For
such patterns Python's backtracking search coincides with maximal-munch
matching, which is what `matchItems` implements; `reSearch` is the
leftmost search of `re.search`. -/

/-- One element of a pattern. -/
inductive PatItem where
  | lit : List Char → PatItem
  | ws : PatItem
  | capPlus : (Char → Bool) → PatItem
  | capStar : (Char → Bool) → PatItem

/-- Python `\s` (ASCII; the toolkit's report is ASCII). -/
def isSpaceC (c : Char) : Bool :=
  c == ' ' || c == '\t' || c == '\n' || c == '\r' || c == '\x0b' || c == '\x0c'

/-- Python `\d`. -/
def isDigitC (c : Char) : Bool := '0' ≤ c && c ≤ '9'

/-- The class `[a-fA-F0-9]`. -/
def isHexC (c : Char) : Bool :=
  isDigitC c || ('a' ≤ c && c ≤ 'f') || ('A' ≤ c && c ≤ 'F')

/-- Python `\S`. -/
def nonSpaceC (c : Char) : Bool := !isSpaceC c

/-- Match a pattern at the start of the text; return the captured groups
in order, or `none` when the pattern does not match here. -/
def matchItems : List PatItem → List Char → Option (List String)
  | [], _ => some []
  | PatItem.lit l :: rest, s =>
    if startsWithL s l then matchItems rest (s.drop l.length) else none
  | PatItem.ws :: rest, s =>
    let w := s.takeWhile isSpaceC
    if w.isEmpty then none else matchItems rest (s.dropWhile isSpaceC)
  | PatItem.capPlus p :: rest, s =>
    let w := s.takeWhile p
    if w.isEmpty then none
    else (matchItems rest (s.dropWhile p)).map (String.mk w :: ·)
  | PatItem.capStar p :: rest, s =>
    (matchItems rest (s.dropWhile p)).map (String.mk (s.takeWhile p) :: ·)

/-- `re.search`: try the pattern at every position, leftmost match wins. -/
def reSearch (pat : List PatItem) : List Char → Option (List String)
  | [] => matchItems pat []
  | s@(_ :: rest) =>
    match matchItems pat s with
    | some caps => some caps
    | none => reSearch pat rest

/-- `_extract_pattern`: `match.group(1)` of the leftmost match. -/
def extractPattern (pat : List PatItem) (text : List Char) : Option String :=
  (reSearch pat text).bind (fun caps => caps.head?)

/-- `Algorithm:\s+(\S+)` -/
def patAlgorithm : List PatItem :=
  [PatItem.lit "Algorithm:".data, PatItem.ws, PatItem.capPlus nonSpaceC]

/-- `Rollback Index:\s+(\d+)` -/
def patRollbackIndex : List PatItem :=
  [PatItem.lit "Rollback Index:".data, PatItem.ws, PatItem.capPlus isDigitC]

/-- `Flags:\s+(\d+)` -/
def patFlags : List PatItem :=
  [PatItem.lit "Flags:".data, PatItem.ws, PatItem.capPlus isDigitC]

/-- `Image size:\s+(\d+) bytes` -/
def patImageSize : List PatItem :=
  [PatItem.lit "Image size:".data, PatItem.ws, PatItem.capPlus isDigitC,
   PatItem.lit " bytes".data]

/-- `Original image size:\s+(\d+) bytes` -/
def patOriginalImageSize : List PatItem :=
  [PatItem.lit "Original image size:".data, PatItem.ws,
   PatItem.capPlus isDigitC, PatItem.lit " bytes".data]

/-- `Image Size:\s+(\d+) bytes` (capital S, descriptor bodies) -/
def patDescImageSize : List PatItem :=
  [PatItem.lit "Image Size:".data, PatItem.ws, PatItem.capPlus isDigitC,
   PatItem.lit " bytes".data]

/-- `Hash Algorithm:\s+(\S+)` -/
def patHashAlgorithm : List PatItem :=
  [PatItem.lit "Hash Algorithm:".data, PatItem.ws, PatItem.capPlus nonSpaceC]

/-- `Partition Name:\s+(\S+)` -/
def patPartitionName : List PatItem :=
  [PatItem.lit "Partition Name:".data, PatItem.ws, PatItem.capPlus nonSpaceC]

/-- `Salt:\s+([a-fA-F0-9]+)` -/
def patSalt : List PatItem :=
  [PatItem.lit "Salt:".data, PatItem.ws, PatItem.capPlus isHexC]

/-- `Digest:\s+([a-fA-F0-9]+)` -/
def patDigest : List PatItem :=
  [PatItem.lit "Digest:".data, PatItem.ws, PatItem.capPlus isHexC]

/-- `Root Digest:\s+([a-fA-F0-9]+)` -/
def patRootDigest : List PatItem :=
  [PatItem.lit "Root Digest:".data, PatItem.ws, PatItem.capPlus isHexC]

/-- `Tree Offset:\s+(\d+)` -/
def patTreeOffset : List PatItem :=
  [PatItem.lit "Tree Offset:".data, PatItem.ws, PatItem.capPlus isDigitC]

/-- `Tree Size:\s+(\d+) bytes` -/
def patTreeSize : List PatItem :=
  [PatItem.lit "Tree Size:".data, PatItem.ws, PatItem.capPlus isDigitC,
   PatItem.lit " bytes".data]

/-- `Data Block Size:\s+(\d+) bytes` -/
def patDataBlockSize : List PatItem :=
  [PatItem.lit "Data Block Size:".data, PatItem.ws, PatItem.capPlus isDigitC,
   PatItem.lit " bytes".data]

/-- `Hash Block Size:\s+(\d+) bytes` -/
def patHashBlockSize : List PatItem :=
  [PatItem.lit "Hash Block Size:".data, PatItem.ws, PatItem.capPlus isDigitC,
   PatItem.lit " bytes".data]

/-- `Rollback Index Location:\s+(\d+)` -/
def patRollbackIndexLocation : List PatItem :=
  [PatItem.lit "Rollback Index Location:".data, PatItem.ws,
   PatItem.capPlus isDigitC]

/-- `Public key \(sha1\):\s+([a-fA-F0-9]+)` -/
def patPublicKeySha1 : List PatItem :=
  [PatItem.lit "Public key (sha1):".data, PatItem.ws, PatItem.capPlus isHexC]

/-- `(\S+)\s+->\s+'([^']*)'` -/
def patProp : List PatItem :=
  [PatItem.capPlus nonSpaceC, PatItem.ws, PatItem.lit "->".data, PatItem.ws,
   PatItem.lit "'".data, PatItem.capStar (fun c => !(c == '\'')),
   PatItem.lit "'".data]

/-- `_parse_hash_descriptor`. -/
def _parse_hash_descriptor (content : List Char) : HashDesc :=
  { image_size := extractPattern patDescImageSize content,
    hash_algorithm := extractPattern patHashAlgorithm content,
    partition_name := extractPattern patPartitionName content,
    salt := extractPattern patSalt content,
    digest := extractPattern patDigest content,
    flags := extractPattern patFlags content }

/-- `_parse_hashtree_descriptor`. -/
def _parse_hashtree_descriptor (content : List Char) : HashtreeDesc :=
  { image_size := extractPattern patDescImageSize content,
    hash_algorithm := extractPattern patHashAlgorithm content,
    partition_name := extractPattern patPartitionName content,
    salt := extractPattern patSalt content,
    root_digest := extractPattern patRootDigest content,
    flags := extractPattern patFlags content,
    tree_offset := extractPattern patTreeOffset content,
    tree_size := extractPattern patTreeSize content,
    data_block_size := extractPattern patDataBlockSize content,
    hash_block_size := extractPattern patHashBlockSize content }

/-- `_parse_chain_descriptor`. -/
def _parse_chain_descriptor (content : List Char) : ChainDesc :=
  { partition_name := extractPattern patPartitionName content,
    rollback_index_location := extractPattern patRollbackIndexLocation content,
    public_key_sha1 := extractPattern patPublicKeySha1 content,
    flags := extractPattern patFlags content }

/-- `_parse_prop_descriptor`: both groups of `(\S+)\s+->\s+'([^']*)'` or
the empty dict. -/
def _parse_prop_descriptor (content : List Char) : Option (String × String) :=
  match reSearch patProp content with
  | some (k :: v :: _) => some (k, v)
  | _ => none

/-! ## Descriptor-block splitting (`_parse_descriptors`)

`re.split(r'    (Hash descriptor|Hashtree descriptor|Chain Partition
descriptor|Prop):', output)` alternates plain segments with the captured
labels; the loop then walks the (label, following-segment) pairs. -/

/-- The four descriptor markers: matched text (four leading spaces, label,
colon) paired with the captured label, in the alternation's order. -/
def descMarkers : List (String × String) :=
  [("    Hash descriptor:", "Hash descriptor"),
   ("    Hashtree descriptor:", "Hashtree descriptor"),
   ("    Chain Partition descriptor:", "Chain Partition descriptor"),
   ("    Prop:", "Prop")]

/-- Try to match one of the four markers at the current position; return
the captured label and the text after the marker. -/
def trySplitMarker (s : List Char) : Option (String × List Char) :=
  match descMarkers.find? (fun m => startsWithL s m.1.data) with
  | some m => some (m.2, s.drop m.1.data.length)
  | none => none

/-- Close the currently-open (label, reversed-content) block, if any. -/
def closeCur : Option (String × List Char) → List (String × String)
  | some (l, rc) => [(l, String.mk rc)]
  | none => []

/-- Scan the report text, producing the (label, block body) pairs that the
descriptor loop consumes, in text order.  Fuel-driven; every step consumes
at least one character, so fuel = text length suffices. -/
def splitDescAux : Nat → List Char → Option (String × List Char) →
    List (String × String)
  | _, [], cur => closeCur cur
  | 0, _ :: _, cur => closeCur cur
  | fuel + 1, s@(c :: rest), cur =>
    match trySplitMarker s with
    | some (label, after) =>
      closeCur cur ++ splitDescAux fuel after (some (label, []))
    | none =>
      match cur with
      | some (l, rc) => splitDescAux fuel rest (some (l, rc ++ [c]))
      | none => splitDescAux fuel rest none

/-- `_parse_descriptors` (lines 63-91): one record per block, tagged by
the introducing label; an unrecognized label would be skipped (the
alternation makes that impossible). -/
def _parse_descriptors (output : List Char) : List Descriptor :=
  (splitDescAux output.length output none).foldl
    (fun acc b =>
      if b.1 = "Hash descriptor" then
        acc ++ [Descriptor.hash (_parse_hash_descriptor b.2.data)]
      else if b.1 = "Hashtree descriptor" then
        acc ++ [Descriptor.hashtree (_parse_hashtree_descriptor b.2.data)]
      else if b.1 = "Chain Partition descriptor" then
        acc ++ [Descriptor.chain (_parse_chain_descriptor b.2.data)]
      else if b.1 = "Prop" then
        acc ++ [Descriptor.prop (_parse_prop_descriptor b.2.data)]
      else acc)
    []

/-- The pure part of `parse_image_info` (lines 43-55): independent regex
searches over the full stdout text plus the descriptor scan. -/
def parse_info_output (output : String) : ImageInfo :=
  { algorithm := extractPattern patAlgorithm output.data,
    rollback_index := extractPattern patRollbackIndex output.data,
    flags := extractPattern patFlags output.data,
    image_size := extractPattern patImageSize output.data,
    original_image_size := extractPattern patOriginalImageSize output.data,
    descriptors := _parse_descriptors output.data }

/-! ## The `Run` monad: crash propagation plus a trace of every external
toolkit invocation (`run_command` calls that reached the subprocess) -/

/-- An argument vector handed to `subprocess.run`.  Elements are
`Option String` because the Python code can place `None` into the list
(e.g. an absent rollback index); `' '.join(cmd)` then raises TypeError. -/
abbrev Cmd := List (Option String)

abbrev Trace := List Cmd

/-- State-with-trace computation that can crash. -/
def Run (α : Type) : Type := Trace → Except Crash α × Trace

instance : Monad Run where
  pure a := fun t => (Except.ok a, t)
  bind x f := fun t =>
    match x t with
    | (Except.ok a, t') => f a t'
    | (Except.error c, t') => (Except.error c, t')

/-- Lift a pure fallible computation (e.g. a `sys.exit` site) into `Run`. -/
def liftE {α : Type} (e : Except Crash α) : Run α := fun t => (e, t)

/-- The external world: subprocess outcomes, stdout text, filesystem state
and the value produced by `secrets.token_hex(32)`.  All modelled as fixed
oracles for one run. -/
structure Env where
  runOk : Cmd → Bool
  stdout : Cmd → String
  fileExists : String → Bool
  freshSalt : String

/-- `AvbImageParser.run_command`: prints `' '.join(cmd)` (TypeError when
any element is `None`, before the subprocess starts), then runs the
subprocess; returns `None` on failure, otherwise the captured stdout. -/
def run_command (env : Env) (cmd : Cmd) : Run (Option String) := fun t =>
  if cmd.all Option.isSome then
    (Except.ok (if env.runOk cmd then some (env.stdout cmd) else none),
     t ++ [cmd])
  else
    (Except.error Crash.typeError, t)

/-! ## Rebuild planner: chained partitions (`_rebuild_chained_partition`) -/

/-- The loop over `current_info['descriptors']` keeps the LAST Hash
descriptor whose partition name equals the partition being rebuilt
(`hash_desc` is overwritten on every match). -/
def findLastHashDesc (pname : String) : List Descriptor → Option HashDesc
  | [] => none
  | Descriptor.hash hd :: rest =>
    if hd.partition_name = some pname then
      match findLastHashDesc pname rest with
      | some d => some d
      | none => some hd
    else findLastHashDesc pname rest
  | _ :: rest => findLastHashDesc pname rest

/-- The same loop collects every Prop descriptor, in order. -/
def collectChainedProps (descs : List Descriptor) : List (Option (String × String)) :=
  descs.foldl
    (fun acc d =>
      match d with
      | Descriptor.prop p => acc ++ [p]
      | _ => acc)
    []

/-- `if hash_desc and use_original_salt: salt = hash_desc['salt']
else: salt = None`.  (A parsed Hash-descriptor dict is always truthy.) -/
def chainedSalt (hash_desc : Option HashDesc) (use_original_salt : Bool) :
    Option String :=
  match hash_desc, use_original_salt with
  | some hd, true => hd.salt
  | _, _ => none

/-- `if salt and salt != "0" * len(salt): cmd.extend(["--salt", salt])`:
the `--salt` extension of the chained command; empty for an absent, empty
or all-zero salt. -/
def chainedSaltArgs : Option String → Cmd
  | none => []
  | some s =>
    if s ≠ "" && s ≠ zeroStringOfLength s.data.length then
      [some "--salt", some s]
    else []

/-- Prop forwarding in the chained command: a prop is forwarded only when
both `prop.get('key')` and `prop.get('value')` are truthy (present and
non-empty). -/
def chainedPropArgs (props : List (Option (String × String))) : Cmd :=
  props.foldl
    (fun acc prop =>
      match prop with
      | some (k, v) =>
        if k ≠ "" && v ≠ "" then acc ++ [some "--prop", some (k ++ ":" ++ v)]
        else acc
      | none => acc)
    []

/-- The fixed part of the chained `add_hash_footer` command (lines
296-305).  `algorithm` and `rollback_index` are inserted as read from the
metadata, so an absent rollback index puts `None` into the vector. -/
def chainedBaseCmd (r : Rebuilder) (pname ipath : String) (psize : Nat)
    (algorithm rollback_index : Option String) (key : String) : Cmd :=
  [some pythonExe, some r.avbtool_path, some "add_hash_footer",
   some "--image", some ipath,
   some "--partition_name", some pname,
   some "--partition_size", some (toString psize),
   some "--algorithm", algorithm,
   some "--key", some key,
   some "--rollback_index", rollback_index]

/-- `_rebuild_chained_partition` (lines 273-322). -/
def _rebuild_chained_partition (env : Env) (r : Rebuilder)
    (pname ipath : String) (psize : Nat)
    (algorithm rollback_index : Option String)
    (current_info : ImageInfo) (use_original_salt : Bool) : Run Bool := do
  let hash_desc := findLastHashDesc pname current_info.descriptors
  let props := collectChainedProps current_info.descriptors
  let salt := chainedSalt hash_desc use_original_salt
  let suitable_key ← liftE (get_key_for_algorithm r algorithm)
  let cmd := chainedBaseCmd r pname ipath psize algorithm rollback_index
      suitable_key ++ chainedSaltArgs salt ++ chainedPropArgs props
  let result ← run_command env cmd
  pure result.isSome

/-! ## Rebuild planner: regular partitions (`_rebuild_hash_partition`) -/

/-- Loop state: (salt, algorithm, partition_props) with initial value
`(None, "NONE", [])`. -/
abbrev RegState := Option String × String × List String

/-- The descriptor loop of `_rebuild_hash_partition` (lines 334-346).  On
a Hash descriptor matching the partition name, with salt reuse enabled:
reading an absent hash algorithm raises AttributeError
(`None.upper()`); an absent salt raises TypeError (`salt[:16]` in the log
line).  Every Prop descriptor is appended unconditionally, with absent
key/value rendered as the empty string (`desc.get('key', '')`). -/
def regularHashLoop (pname : String) (use_original_salt : Bool) :
    List Descriptor → RegState → Except Crash RegState
  | [], st => Except.ok st
  | desc :: rest, st =>
    match desc with
    | Descriptor.hash hd =>
      if hd.partition_name = some pname then
        if use_original_salt then
          match hd.hash_algorithm with
          | none => Except.error Crash.attrError
          | some ha =>
            let alg := pyUpper ha
            let alg := if alg = "SHA256" then "NONE" else alg
            match hd.salt with
            | none => Except.error Crash.typeError
            | some s =>
              regularHashLoop pname use_original_salt rest (some s, alg, st.2.2)
        else regularHashLoop pname use_original_salt rest st
      else regularHashLoop pname use_original_salt rest st
    | Descriptor.prop p =>
      let k := (p.map Prod.fst).getD ""
      let v := (p.map Prod.snd).getD ""
      regularHashLoop pname use_original_salt rest
        (st.1, st.2.1, st.2.2 ++ [k ++ ":" ++ v])
    | _ => regularHashLoop pname use_original_salt rest st

/-- `if not salt: salt = secrets.token_hex(32)` — an absent or empty salt
is replaced by a fresh random salt (the env oracle). -/
def regularFinalSalt (env : Env) (salt : Option String) : String :=
  match salt with
  | some s => if s = "" then env.freshSalt else s
  | none => env.freshSalt

/-- The fixed part of the regular `add_hash_footer` command (lines
353-360); no `--key` and no `--rollback_index` are passed for regular
partitions. -/
def regularBaseCmd (r : Rebuilder) (pname ipath : String) (psize : Nat)
    (algorithm : String) : Cmd :=
  [some pythonExe, some r.avbtool_path, some "add_hash_footer",
   some "--image", some ipath,
   some "--partition_name", some pname,
   some "--partition_size", some (toString psize),
   some "--algorithm", some algorithm]

/-- `for prop in partition_props: cmd.extend(["--prop", prop])`. -/
def regularPropArgs (props : List String) : Cmd :=
  props.foldl (fun acc p => acc ++ [some "--prop", some p]) []

/-- `_rebuild_hash_partition` (lines 324-376).  `vbmeta_info` is accepted
but never read, exactly as in the source. -/
def _rebuild_hash_partition (env : Env) (r : Rebuilder)
    (pname ipath : String) (psize : Nat)
    (vbmeta_info current_info : Option ImageInfo)
    (use_original_salt : Bool) : Run Bool := do
  let st0 : RegState := (none, "NONE", [])
  let st ←
    match current_info with
    | some info =>
      if info.descriptors.isEmpty then pure st0
      else liftE (regularHashLoop pname use_original_salt info.descriptors st0)
    | none => pure st0
  let salt := regularFinalSalt env st.1
  let cmd := regularBaseCmd r pname ipath psize st.2.1
      ++ [some "--salt", some salt] ++ regularPropArgs st.2.2
  let result ← run_command env cmd
  pure result.isSome

/-! ## Orchestrator (`AvbRebuilder`) -/

/-- The `info_image` command of `parse_image_info`. -/
def info_image_cmd (r : Rebuilder) (image_path : String) : Cmd :=
  [some pythonExe, some r.avbtool_path, some "info_image",
   some "--image", some image_path]

/-- `parse_image_info` (lines 34-55): `None` when the subprocess failed or
produced empty stdout, otherwise the parsed dict. -/
def parse_image_info (env : Env) (r : Rebuilder) (image_path : String) :
    Run (Option ImageInfo) := do
  let result ← run_command env (info_image_cmd r image_path)
  match result with
  | none => pure none
  | some out =>
    if out = "" then pure none else pure (some (parse_info_output out))

/-- The `erase_footer` command (lines 260, 267). -/
def erase_footer_cmd (r : Rebuilder) (image_path : String) : Cmd :=
  [some pythonExe, some r.avbtool_path, some "erase_footer",
   some "--image", some image_path]

/-- `rebuild_partition` (lines 234-271).  The chained rollback index comes
from `current_info.get('rollback_index', '0')`; the parse dict always has
that key, so the `'0'` default is dead and an absent index stays `None`. -/
def rebuild_partition (env : Env) (r : Rebuilder)
    (partition_name image_path : String) (vbmeta_info : Option ImageInfo)
    (use_original_salt : Bool) : Run Bool := do
  let current_info ← parse_image_info env r image_path
  let is_chained := rebuild_partition_is_chained current_info
  let chain_algorithm :=
    if is_chained then current_info.bind (fun i => i.algorithm) else none
  let chain_rollback_index :=
    if is_chained then current_info.bind (fun i => i.rollback_index) else none
  match current_info with
  | none => pure false
  | some info =>
    match info.image_size with
    | none => pure false
    | some sz =>
      if sz = "" then pure false
      else
        match pyInt sz with
        | Except.error c => liftE (Except.error c)
        | Except.ok partition_size =>
          if is_chained then do
            let _ ← run_command env (erase_footer_cmd r image_path)
            _rebuild_chained_partition env r partition_name image_path
              partition_size chain_algorithm chain_rollback_index info
              use_original_salt
          else do
            let _ ← run_command env (erase_footer_cmd r image_path)
            _rebuild_hash_partition env r partition_name image_path
              partition_size vbmeta_info current_info use_original_salt

/-- Python dict assignment `d[k] = v` on an insertion-ordered assoc list:
an existing key keeps its position and gets the new value. -/
def dictInsert (d : List (String × String)) (k v : String) :
    List (String × String) :=
  if d.any (fun e => e.1 == k) then
    d.map (fun e => if e.1 == k then (k, v) else e)
  else d ++ [(k, v)]

/-- `dict(pairs)`. -/
def dictOfPairs (ps : List (String × String)) : List (String × String) :=
  ps.foldl (fun acc p => dictInsert acc p.1 p.2) []

/-- `detect_partition_images` (lines 221-232): probe `boot.img` and
`init_boot.img` in the working directory. -/
def detect_partition_images (env : Env) : List (String × String) :=
  ["boot", "init_boot"].foldl
    (fun acc partition =>
      if env.fileExists (partition ++ ".img") then
        dictInsert acc partition (partition ++ ".img")
      else acc)
    []

/-- The `make_vbmeta_image` command of `rebuild_vbmeta` (lines 392-411).
Algorithm, rollback index and flags are inserted as parsed (the
`.get(..., default)` fall-backs are dead because `parse_image_info`
always sets those keys), so absent values place `None` in the vector. -/
def make_vbmeta_cmd (r : Rebuilder)
    (algorithm rollback_index flags : Option String) (key : String)
    (partition_paths : List String) : Cmd :=
  [some pythonExe, some r.avbtool_path, some "make_vbmeta_image",
   some "--output", some "vbmeta_new.img",
   some "--algorithm", algorithm,
   some "--key", some key,
   some "--rollback_index", rollback_index,
   some "--flags", flags,
   some "--rollback_index_location", some "0",
   some "--padding_size", some "4096",
   some "--include_descriptors_from_image", some "vbmeta.img"]
  ++ partition_paths.foldl
    (fun acc p => acc ++ [some "--include_descriptors_from_image", some p]) []

/-- `rebuild_vbmeta` (lines 378-421).  The final `shutil.move` onto
`vbmeta.img` is a filesystem effect outside the command trace. -/
def rebuild_vbmeta (env : Env) (r : Rebuilder)
    (partition_images : List (String × String)) : Run Bool := do
  let vbmeta_info ← parse_image_info env r "vbmeta.img"
  match vbmeta_info with
  | none => pure false
  | some info => do
    let suitable_key ← liftE (get_key_for_algorithm r info.algorithm)
    let paths :=
      (partition_images.filter (fun pi => env.fileExists pi.2)).map
        (fun pi => pi.2)
    let result ← run_command env
      (make_vbmeta_cmd r info.algorithm info.rollback_index info.flags
        suitable_key paths)
    if result.isSome && env.fileExists "vbmeta_new.img" then pure true
    else pure false

/-- `verify_result`'s per-partition loop (lines 433-436). -/
def verify_loop (env : Env) (r : Rebuilder) :
    List (String × String) → Run Unit
  | [] => pure ()
  | (_, image_path) :: rest => do
    let _ ← parse_image_info env r image_path
    verify_loop env r rest

/-- `verify_result` (lines 423-436): informational re-parses only. -/
def verify_result (env : Env) (r : Rebuilder) : Run Unit := do
  if env.fileExists "vbmeta.img" then do
    let _ ← parse_image_info env r "vbmeta.img"
    verify_loop env r (detect_partition_images env)
  else
    verify_loop env r (detect_partition_images env)

/-- Partition discovery in `rebuild_all` (lines 447-458): an explicit list
(each entry optionally suffixed `.img`, probed for existence) or the
working-directory scan. -/
def discover_images (env : Env) : Option (List String) →
    List (String × String)
  | some partitions =>
    partitions.foldl
      (fun acc partition =>
        let img_file :=
          if endsWithL partition.data ".img".data then partition
          else partition ++ ".img"
        if env.fileExists img_file then
          dictInsert acc (pyReplace img_file ".img" "") img_file
        else acc)
      []
  | none => detect_partition_images env

/-- The classification loop of `rebuild_all` (lines 464-474): parse each
image and split into (chained, regular), preserving discovery order. -/
def classify_phase (env : Env) (r : Rebuilder) :
    List (String × String) → Run (List (String × String) × List (String × String))
  | [] => pure ([], [])
  | (partition_name, image_path) :: rest => do
    let current_info ← parse_image_info env r image_path
    let (chained, regular) ← classify_phase env r rest
    if classify_is_chained current_info then
      pure ((partition_name, image_path) :: chained, regular)
    else
      pure (chained, (partition_name, image_path) :: regular)

/-- The per-partition rebuild loop (lines 494-497 and 504-506). -/
def run_partitions (env : Env) (r : Rebuilder) :
    List (String × String) → Option ImageInfo → Bool → Nat → Run Nat
  | [], _, _, success_count => pure success_count
  | (partition_name, image_path) :: rest, vbmeta_info, use_original_salt,
      success_count => do
    let ok ← rebuild_partition env r partition_name image_path vbmeta_info
      use_original_salt
    run_partitions env r rest vbmeta_info use_original_salt
      (if ok then success_count + 1 else success_count)

/-- The rebuild loops, umbrella rebuild, success check and verification of
`rebuild_all` (lines 494-525).  The umbrella rebuild's boolean result only
selects a warning message. -/
def rebuild_all_main (env : Env) (r : Rebuilder)
    (chained_partitions regular_partitions : List (String × String))
    (use_original_salt chained_mode : Bool) : Run Bool := do
  let sc1 ← run_partitions env r chained_partitions (some emptyImageInfo)
    use_original_salt 0
  let sc2 ←
    if !regular_partitions.isEmpty && !chained_mode then do
      let vbmeta_info ← parse_image_info env r "vbmeta.img"
      let sc2 ← run_partitions env r regular_partitions vbmeta_info
        use_original_salt sc1
      if !regular_partitions.isEmpty then do
        let _vbmeta_ok ← rebuild_vbmeta env r
          (dictOfPairs regular_partitions)
        pure sc2
      else pure sc2
    else pure sc1
  if sc2 = 0 then pure false
  else do
    verify_result env r
    pure true

/-- The tail of `rebuild_all` after classification (lines 476-492).  In
chained mode regular partitions are dropped with a warning; otherwise
regular partitions require `vbmeta.img` to exist before any mutation. -/
def rebuild_all_after (env : Env) (r : Rebuilder)
    (chained_partitions regular_partitions : List (String × String))
    (use_original_salt chained_mode : Bool) : Run Bool := do
  if chained_mode then
    if chained_partitions.isEmpty then pure false
    else
      rebuild_all_main env r chained_partitions [] use_original_salt
        chained_mode
  else
    if !regular_partitions.isEmpty && !env.fileExists "vbmeta.img" then
      pure false
    else
      rebuild_all_main env r chained_partitions regular_partitions
        use_original_salt chained_mode

/-- `rebuild_all` (lines 438-525).  `create_backup` is a no-op. -/
def rebuild_all (env : Env) (r : Rebuilder) (partitions : Option (List String))
    (use_original_salt chained_mode : Bool) : Run Bool := do
  let partition_images := discover_images env partitions
  if partition_images.isEmpty then pure false
  else do
    let cls ← classify_phase env r partition_images
    rebuild_all_after env r cls.1 cls.2 use_original_salt chained_mode

/-! ## Spec-side characterizations (used to state the claims) -/

/-- The labels of the four descriptor-block markers. -/
def fourLabels : List String :=
  ["Hash descriptor", "Hashtree descriptor", "Chain Partition descriptor",
   "Prop"]

/-- The label(s) of the currently-open split block. -/
def curLabels : Option (String × List Char) → List String
  | some (l, _) => [l]
  | none => []

/-- The introducing label corresponding to a descriptor record's variant. -/
def descVariantLabel : Descriptor → String
  | Descriptor.hash _ => "Hash descriptor"
  | Descriptor.hashtree _ => "Hashtree descriptor"
  | Descriptor.chain _ => "Chain Partition descriptor"
  | Descriptor.prop _ => "Prop"

/-- Spec-side notion of "the descriptor blocks of a report": the sequence
of marker labels found by a plain left-to-right, non-overlapping scan. -/
def descriptorBlockLabels : Nat → List Char → List String
  | _, [] => []
  | 0, _ :: _ => []
  | fuel + 1, s@(_ :: rest) =>
    match trySplitMarker s with
    | some (label, after) => label :: descriptorBlockLabels fuel after
    | none => descriptorBlockLabels fuel rest

/-- Whether a prop descriptor survives the chained-path filter
(`prop.get('key') and prop.get('value')`). -/
def chainedPropKept : Option (String × String) → Bool
  | some (k, v) => k ≠ "" && v ≠ ""
  | none => false

/-- The `key:value` rendering of a prop descriptor. -/
def chainedPropFmt : Option (String × String) → String
  | some (k, v) => k ++ ":" ++ v
  | none => ""

/-- The `key:value` string the regular path appends for a prop descriptor
(with absent key/value rendered as the empty string); `none` for other
descriptor kinds. -/
def regularPropEntry : Descriptor → Option String
  | Descriptor.prop p =>
    some (((p.map Prod.fst).getD "") ++ ":" ++ ((p.map Prod.snd).getD ""))
  | _ => none

/-- Deterministic characterization of `parse_image_info`'s value (proved
equal to the monadic computation in `parse_image_info_apply`). -/
def parse_image_result (env : Env) (r : Rebuilder) (p : String) :
    Option ImageInfo :=
  if env.runOk (info_image_cmd r p) then
    if env.stdout (info_image_cmd r p) = "" then none
    else some (parse_info_output (env.stdout (info_image_cmd r p)))
  else none

/-! ## Statement helpers and concrete fixtures -/

/-- The subcommand token of an avbtool invocation (third argument). -/
def cmdKindIs (c : Cmd) (k : String) : Bool :=
  match c with
  | _ :: _ :: s :: _ => s == some k
  | _ => false

/-- Whether the vector contains the consecutive pair `flag value`. -/
def cmdHasArgPair : Cmd → String → String → Bool
  | [], _, _ => false
  | _ :: [], _, _ => false
  | a :: b :: rest, flag, value =>
    (a == some flag && b == some value) || cmdHasArgPair (b :: rest) flag value

/-- Whether some traced command contains the consecutive pair. -/
def traceHasArgPair (tr : Trace) (flag value : String) : Bool :=
  tr.any (fun c => cmdHasArgPair c flag value)

/-- An environment in which every command succeeds with empty output. -/
def envPlain : Env :=
  { runOk := fun _ => true, stdout := fun _ => "",
    fileExists := fun _ => false, freshSalt := "aa" }

/-- Auto-detected 2048-bit test key only. -/
def rAuto2048 : Rebuilder :=
  { avbtool_path := "tools/avbtool.py", private_key := none,
    available_keys := ["tools/pem/testkey_rsa2048.pem"] }

/-- Auto-detected 4096-bit test key only. -/
def rAuto4096 : Rebuilder :=
  { avbtool_path := "tools/avbtool.py", private_key := none,
    available_keys := ["tools/pem/testkey_rsa4096.pem"] }

/-- Fixture (C1): a matching Hash descriptor whose salt is all zeros. -/
def hdZeroSalt : HashDesc :=
  { image_size := some "100", hash_algorithm := some "sha256",
    partition_name := some "boot", salt := some "00000000",
    digest := some "dd", flags := some "0" }

/-- Fixture (C1): image metadata containing `hdZeroSalt`. -/
def infoZeroSalt : ImageInfo :=
  { algorithm := none, rollback_index := none, flags := none,
    image_size := some "100", original_image_size := none,
    descriptors := [Descriptor.hash hdZeroSalt] }

/-- Fixture (C4): a matching Hash descriptor with an absent salt. -/
def hdNoSalt : HashDesc :=
  { image_size := some "100", hash_algorithm := some "sha256",
    partition_name := some "boot", salt := none,
    digest := some "dd", flags := some "0" }

/-- Fixture (C4): image metadata containing `hdNoSalt`. -/
def infoNoSalt : ImageInfo :=
  { algorithm := none, rollback_index := none, flags := none,
    image_size := some "100", original_image_size := none,
    descriptors := [Descriptor.hash hdNoSalt] }

/-- Fixture (C4): chained metadata whose rollback index is absent. -/
def infoChainNoRollback : ImageInfo :=
  { algorithm := some "SHA256_RSA2048", rollback_index := none,
    flags := none, image_size := some "100", original_image_size := none,
    descriptors := [] }

/-- Fixture (C6): a matching Hash descriptor whose hash algorithm reads
`sha512`. -/
def hdSha512 : HashDesc :=
  { image_size := some "100", hash_algorithm := some "sha512",
    partition_name := some "boot", salt := some "ab",
    digest := some "dd", flags := some "0" }

/-- Fixture (C6): image metadata containing `hdSha512`. -/
def infoSha512 : ImageInfo :=
  { algorithm := none, rollback_index := none, flags := none,
    image_size := some "100", original_image_size := none,
    descriptors := [Descriptor.hash hdSha512] }

/-- Fixture (C3 counterexample): `boot.img` is a regular partition whose
rebuild succeeds; `vbmeta.img` parses with algorithm `NONE`, so the key
selection inside the umbrella rebuild calls `sys.exit(1)`. -/
def envC3 : Env :=
  { runOk := fun _ => true,
    stdout := fun cmd =>
      if cmd.contains (some "vbmeta.img") then "Algorithm: NONE"
      else "Image size: 100 bytes",
    fileExists := fun p => p == "boot.img" || p == "vbmeta.img",
    freshSalt := "aa" }

/-- Fixture (C3 amended): same layout but a well-formed `vbmeta.img`; the
umbrella `make_vbmeta_image` subprocess result is the parameter `u`. -/
def envC3u (u : Bool) : Env :=
  { runOk := fun cmd => if cmdKindIs cmd "make_vbmeta_image" then u else true,
    stdout := fun cmd =>
      if cmd.contains (some "vbmeta.img") && cmdKindIs cmd "info_image" then
        "Algorithm: SHA256_RSA4096\nRollback Index: 0\nFlags: 0"
      else "Image size: 100 bytes",
    fileExists := fun p =>
      p == "boot.img" || p == "vbmeta.img" || p == "vbmeta_new.img",
    freshSalt := "aa" }

/-- Fixture (C7 witness): one unsigned `boot.img`, no `vbmeta.img`. -/
def envC7 : Env :=
  { runOk := fun _ => true, stdout := fun _ => "Hello",
    fileExists := fun p => p == "boot.img", freshSalt := "aa" }

/-! # Theorems -/

/-! ## Helper lemmas: strings -/

theorem allZeroChars_eq_replicate {l : List Char}
    (h : l.all (fun c => c == '0') = true) :
    l = List.replicate l.length '0' := by
  induction l with
  | nil => rfl
  | cons c rest ih =>
    simp only [List.all_cons, Bool.and_eq_true, beq_iff_eq] at h
    obtain ⟨hc, hrest⟩ := h
    subst hc
    simp only [List.length_cons, List.replicate_succ]
    exact congrArg (List.cons '0') (ih hrest)

theorem allZeroDigits_eq_zeroString {s : String} (h : allZeroDigits s = true) :
    s = zeroStringOfLength s.data.length := by
  cases s with
  | mk l => exact congrArg String.mk (allZeroChars_eq_replicate h)

/-! ## Helper lemmas: the `Run` monad -/

theorem run_bind_apply {α β : Type} (x : Run α) (f : α → Run β) (t : Trace) :
    (x >>= f) t
      = match x t with
        | (Except.ok a, t') => f a t'
        | (Except.error c, t') => (Except.error c, t') := rfl

theorem run_pure_apply {α : Type} (a : α) (t : Trace) :
    (pure a : Run α) t = (Except.ok a, t) := rfl

theorem liftE_apply {α : Type} (e : Except Crash α) (t : Trace) :
    liftE e t = (e, t) := rfl

/-! ## Helper lemmas: the regular-partition descriptor loop -/

theorem regularHashLoop_regen (pname : String) :
    ∀ (descs : List Descriptor) (st0 st : RegState),
      regularHashLoop pname false descs st0 = Except.ok st →
      st.1 = st0.1 ∧ st.2.1 = st0.2.1 := by
  intro descs
  induction descs with
  | nil =>
    intro st0 st h
    simp only [regularHashLoop] at h
    cases h
    exact ⟨rfl, rfl⟩
  | cons d rest ih =>
    intro st0 st h
    cases d with
    | hash hd =>
      simp only [regularHashLoop, Bool.false_eq_true, if_false] at h
      by_cases hp : hd.partition_name = some pname
      · rw [if_pos hp] at h
        exact ih st0 st h
      · rw [if_neg hp] at h
        exact ih st0 st h
    | hashtree hd =>
      simp only [regularHashLoop] at h
      exact ih st0 st h
    | chain cd =>
      simp only [regularHashLoop] at h
      exact ih st0 st h
    | prop p =>
      simp only [regularHashLoop] at h
      have hres := ih _ st h
      exact ⟨hres.1, hres.2⟩

theorem regularHashLoop_noMatch (pname : String) (uos : Bool) :
    ∀ (descs : List Descriptor) (st0 st : RegState),
      findLastHashDesc pname descs = none →
      regularHashLoop pname uos descs st0 = Except.ok st →
      st.1 = st0.1 ∧ st.2.1 = st0.2.1 := by
  intro descs
  induction descs with
  | nil =>
    intro st0 st _ h
    simp only [regularHashLoop] at h
    cases h
    exact ⟨rfl, rfl⟩
  | cons d rest ih =>
    intro st0 st hf h
    cases d with
    | hash hd =>
      simp only [findLastHashDesc] at hf
      by_cases hp : hd.partition_name = some pname
      · rw [if_pos hp] at hf
        cases hrest : findLastHashDesc pname rest with
        | some d' => rw [hrest] at hf; cases hf
        | none => rw [hrest] at hf; cases hf
      · rw [if_neg hp] at hf
        simp only [regularHashLoop] at h
        rw [if_neg hp] at h
        exact ih st0 st hf h
    | hashtree hd =>
      simp only [findLastHashDesc] at hf
      simp only [regularHashLoop] at h
      exact ih st0 st hf h
    | chain cd =>
      simp only [findLastHashDesc] at hf
      simp only [regularHashLoop] at h
      exact ih st0 st hf h
    | prop p =>
      simp only [findLastHashDesc] at hf
      simp only [regularHashLoop] at h
      have hres := ih _ st hf h
      exact ⟨hres.1, hres.2⟩

theorem regularHashLoop_lastMatch (pname : String) :
    ∀ (descs : List Descriptor) (st0 st : RegState) (d : HashDesc),
      regularHashLoop pname true descs st0 = Except.ok st →
      findLastHashDesc pname descs = some d →
      ∃ ha s, d.hash_algorithm = some ha ∧ d.salt = some s ∧
        st.1 = some s ∧
        st.2.1 = (if pyUpper ha = "SHA256" then "NONE" else pyUpper ha) := by
  intro descs
  induction descs with
  | nil =>
    intro st0 st d _ hf
    simp [findLastHashDesc] at hf
  | cons dd rest ih =>
    intro st0 st d h hf
    cases dd with
    | hash hd =>
      simp only [findLastHashDesc] at hf
      simp only [regularHashLoop, if_true] at h
      by_cases hp : hd.partition_name = some pname
      · rw [if_pos hp] at hf
        rw [if_pos hp] at h
        cases hha : hd.hash_algorithm with
        | none => simp [hha] at h
        | some ha =>
          simp only [hha] at h
          cases hsa : hd.salt with
          | none => simp [hsa] at h
          | some s =>
            simp only [hsa] at h
            cases hrest : findLastHashDesc pname rest with
            | some d' =>
              rw [hrest] at hf
              cases hf
              exact ih _ st d h hrest
            | none =>
              rw [hrest] at hf
              cases hf
              obtain ⟨h1, h2⟩ := regularHashLoop_noMatch pname true rest _ st
                hrest h
              exact ⟨ha, s, hha, hsa, by rw [h1], by rw [h2]⟩
      · rw [if_neg hp] at hf
        rw [if_neg hp] at h
        exact ih st0 st d h hf
    | hashtree hd =>
      simp only [findLastHashDesc] at hf
      simp only [regularHashLoop] at h
      exact ih st0 st d h hf
    | chain cd =>
      simp only [findLastHashDesc] at hf
      simp only [regularHashLoop] at h
      exact ih st0 st d h hf
    | prop p =>
      simp only [findLastHashDesc] at hf
      simp only [regularHashLoop] at h
      exact ih _ st d h hf

theorem regularHashLoop_props (pname : String) (uos : Bool) :
    ∀ (descs : List Descriptor) (st0 st : RegState),
      regularHashLoop pname uos descs st0 = Except.ok st →
      st.2.2 = st0.2.2 ++ descs.filterMap regularPropEntry := by
  intro descs
  induction descs with
  | nil =>
    intro st0 st h
    simp only [regularHashLoop] at h
    cases h
    simp
  | cons d rest ih =>
    intro st0 st h
    cases d with
    | hash hd =>
      simp only [regularHashLoop] at h
      have hent : regularPropEntry (Descriptor.hash hd) = none := rfl
      by_cases hp : hd.partition_name = some pname
      · rw [if_pos hp] at h
        by_cases huos : uos = true
        · rw [if_pos huos] at h
          cases hha : hd.hash_algorithm with
          | none => simp [hha] at h
          | some ha =>
            simp only [hha] at h
            cases hsa : hd.salt with
            | none => simp [hsa] at h
            | some s =>
              simp only [hsa] at h
              have := ih _ st h
              simpa [List.filterMap_cons, hent] using this
        · rw [if_neg huos] at h
          have := ih st0 st h
          simpa [List.filterMap_cons, hent] using this
      · rw [if_neg hp] at h
        have := ih st0 st h
        simpa [List.filterMap_cons, hent] using this
    | hashtree hd =>
      simp only [regularHashLoop] at h
      have := ih st0 st h
      simpa [List.filterMap_cons, regularPropEntry] using this
    | chain cd =>
      simp only [regularHashLoop] at h
      have := ih st0 st h
      simpa [List.filterMap_cons, regularPropEntry] using this
    | prop p =>
      simp only [regularHashLoop] at h
      have := ih _ st h
      simpa [List.filterMap_cons, regularPropEntry, List.append_assoc]
        using this

/-! ## Helper lemmas: the prop-argument folds -/

theorem chainedPropArgs_foldl (props : List (Option (String × String))) :
    ∀ (acc : Cmd),
      props.foldl
        (fun acc prop =>
          match prop with
          | some (k, v) =>
            if k ≠ "" && v ≠ "" then
              acc ++ [some "--prop", some (k ++ ":" ++ v)]
            else acc
          | none => acc)
        acc
      = acc ++ ((props.filter chainedPropKept).map
          (fun p => [some "--prop", some (chainedPropFmt p)])).flatten := by
  induction props with
  | nil => intro acc; simp
  | cons p rest ih =>
    intro acc
    cases p with
    | none =>
      simp only [List.foldl_cons]
      rw [ih acc]
      simp [List.filter, chainedPropKept]
    | some kv =>
      obtain ⟨k, v⟩ := kv
      simp only [List.foldl_cons]
      by_cases hk : (k ≠ "" && v ≠ "") = true
      · rw [if_pos hk, ih]
        have : chainedPropKept (some (k, v)) = true := hk
        simp [List.filter_cons, this, chainedPropFmt]
      · rw [if_neg hk, ih]
        have : chainedPropKept (some (k, v)) = false := Bool.eq_false_iff.mpr hk
        simp [List.filter_cons, this]

theorem chainedPropArgs_spec (props : List (Option (String × String))) :
    chainedPropArgs props
      = ((props.filter chainedPropKept).map
          (fun p => [some "--prop", some (chainedPropFmt p)])).flatten := by
  unfold chainedPropArgs
  simpa using chainedPropArgs_foldl props []

theorem regularPropArgs_foldl (props : List String) :
    ∀ (acc : Cmd),
      props.foldl (fun acc p => acc ++ [some "--prop", some p]) acc
      = acc ++ (props.map (fun p => [some "--prop", some p])).flatten := by
  induction props with
  | nil => intro acc; simp
  | cons p rest ih =>
    intro acc
    simp only [List.foldl_cons]
    rw [ih]
    simp

theorem regularPropArgs_spec (props : List String) :
    regularPropArgs props
      = (props.map (fun p => [some "--prop", some p])).flatten := by
  unfold regularPropArgs
  simpa using regularPropArgs_foldl props []

/-! ## Helper lemmas: parsing and classification in the `Run` monad -/

theorem run_command_allSome (env : Env) (cmd : Cmd)
    (h : cmd.all Option.isSome = true) (t : Trace) :
    run_command env cmd t
      = (Except.ok (if env.runOk cmd then some (env.stdout cmd) else none),
         t ++ [cmd]) := by
  simp [run_command, h]

theorem info_image_cmd_allSome (r : Rebuilder) (p : String) :
    (info_image_cmd r p).all Option.isSome = true := rfl

theorem parse_image_info_apply (env : Env) (r : Rebuilder) (p : String)
    (t : Trace) :
    parse_image_info env r p t
      = (Except.ok (parse_image_result env r p),
         t ++ [info_image_cmd r p]) := by
  unfold parse_image_info parse_image_result
  rw [run_bind_apply,
    run_command_allSome env _ (info_image_cmd_allSome r p) t]
  cases hr : env.runOk (info_image_cmd r p) with
  | false => simp [hr, run_pure_apply]
  | true =>
    by_cases ho : env.stdout (info_image_cmd r p) = ""
    · simp [hr, ho, run_pure_apply]
    · simp [hr, ho, run_pure_apply]

theorem classify_phase_ok_trace (env : Env) (r : Rebuilder) :
    ∀ (pi : List (String × String)) (t : Trace),
      ∃ ch reg extra,
        classify_phase env r pi t = (Except.ok (ch, reg), t ++ extra)
        ∧ ∀ c ∈ extra, ∃ p, c = info_image_cmd r p := by
  intro pi
  induction pi with
  | nil =>
    intro t
    exact ⟨[], [], [], by simp [classify_phase, run_pure_apply], by simp⟩
  | cons pp rest ih =>
    obtain ⟨pn, ip⟩ := pp
    intro t
    obtain ⟨ch, reg, extra, hrec, hmem⟩ := ih (t ++ [info_image_cmd r ip])
    have hmem' : ∀ c ∈ info_image_cmd r ip :: extra,
        ∃ p, c = info_image_cmd r p := by
      intro c hc
      rcases List.mem_cons.mp hc with hc | hc
      · exact ⟨ip, hc⟩
      · exact hmem c hc
    by_cases hcl : classify_is_chained (parse_image_result env r ip) = true
    · refine ⟨(pn, ip) :: ch, reg, info_image_cmd r ip :: extra, ?_, hmem'⟩
      simp [classify_phase, run_bind_apply, parse_image_info_apply, hrec,
        hcl, run_pure_apply]
    · rw [Bool.not_eq_true] at hcl
      refine ⟨ch, (pn, ip) :: reg, info_image_cmd r ip :: extra, ?_, hmem'⟩
      simp [classify_phase, run_bind_apply, parse_image_info_apply, hrec,
        hcl, run_pure_apply]

/-! ## Claim C7 -/

/-- Claim C7: fail-fast on a missing umbrella container.  In default
(non-chained) mode, when classification yields at least one regular
partition and `vbmeta.img` does not exist, `rebuild_all` returns failure
with a trace containing only `info_image` (read-only) invocations: no
`erase_footer`, `add_hash_footer` or `make_vbmeta_image` command was ever
issued, so no image was mutated. -/
theorem C7_missing_vbmeta_failfast (env : Env) (r : Rebuilder)
    (partitions : Option (List String)) (uos : Bool)
    (ch reg : List (String × String)) (tr0 : Trace)
    (hcls : classify_phase env r (discover_images env partitions) []
      = (Except.ok (ch, reg), tr0))
    (hreg : reg ≠ [])
    (hvb : env.fileExists "vbmeta.img" = false) :
    rebuild_all env r partitions uos false [] = (Except.ok false, tr0)
    ∧ ∀ c ∈ tr0, ∃ p, c = info_image_cmd r p := by
  constructor
  · have hpi : (discover_images env partitions).isEmpty = false := by
      cases hd : discover_images env partitions with
      | cons a l => rfl
      | nil =>
        rw [hd] at hcls
        simp only [classify_phase, run_pure_apply, Prod.mk.injEq,
          Except.ok.injEq] at hcls
        exact absurd hcls.1.2.symm hreg
    have hregE : reg.isEmpty = false := by
      cases reg with
      | nil => exact absurd rfl hreg
      | cons a l => rfl
    simp [rebuild_all, hpi, run_bind_apply, hcls, rebuild_all_after,
      hregE, hvb, run_pure_apply]
    rw [if_neg hreg]
    exact run_pure_apply false tr0
  · obtain ⟨ch', reg', extra, heq, hmem⟩ :=
      classify_phase_ok_trace env r (discover_images env partitions) []
    rw [heq] at hcls
    simp only [Prod.mk.injEq, Except.ok.injEq, List.nil_append] at hcls
    obtain ⟨⟨hch, hrg⟩, htr⟩ := hcls
    subst htr
    exact hmem

/-- Witness for C7: a working directory with a single unsigned `boot.img`
and no `vbmeta.img`; the run fails and the trace holds exactly one
read-only `info_image` call. -/
theorem C7_missing_vbmeta_failfast_witness :
    rebuild_all envC7 rAuto4096 none true false []
      = (Except.ok false, [info_image_cmd rAuto4096 "boot.img"])
    ∧ ∀ c ∈ [info_image_cmd rAuto4096 "boot.img"],
        ∃ p, c = info_image_cmd rAuto4096 p :=
  C7_missing_vbmeta_failfast envC7 rAuto4096 none true
    [] [("boot", "boot.img")] [info_image_cmd rAuto4096 "boot.img"]
    rfl (by simp) rfl

/-! ## Claim C3 -/

/-- Claim C3, counterexample: a run in which the regular partition
`boot.img` is successfully rebuilt (the trace holds a successful
`add_hash_footer` invocation), yet the umbrella rebuild terminates the
whole process via `sys.exit(1)`: `rebuild_vbmeta` re-parses `vbmeta.img`,
reads algorithm "NONE", and `get_key_for_algorithm` exits fatally from
inside the umbrella step — refuting "the process is never terminated from
inside the umbrella rebuild". -/
theorem C3_counterexample :
    ((rebuild_all envC3 rAuto4096 none false false) []).1
      = Except.error Crash.sysExit
    ∧ (((rebuild_all envC3 rAuto4096 none false false) []).2).any
        (fun c => cmdKindIs c "add_hash_footer" && envC3.runOk c) = true :=
  ⟨rfl, rfl⟩

theorem verify_loop_ok (env : Env) (r : Rebuilder) :
    ∀ (ps : List (String × String)) (t : Trace),
      ∃ t', verify_loop env r ps t = (Except.ok (), t') := by
  intro ps
  induction ps with
  | nil => intro t; exact ⟨t, rfl⟩
  | cons p rest ih =>
    obtain ⟨pn, ip⟩ := p
    intro t
    obtain ⟨t', h⟩ := ih (t ++ [info_image_cmd r ip])
    refine ⟨t', ?_⟩
    simp [verify_loop, run_bind_apply, parse_image_info_apply, h]

theorem verify_result_ok (env : Env) (r : Rebuilder) (t : Trace) :
    ∃ t', verify_result env r t = (Except.ok (), t') := by
  unfold verify_result
  by_cases hfe : env.fileExists "vbmeta.img" = true
  · obtain ⟨t', h⟩ := verify_loop_ok env r (detect_partition_images env)
      (t ++ [info_image_cmd r "vbmeta.img"])
    refine ⟨t', ?_⟩
    simp [hfe, run_bind_apply, parse_image_info_apply, h]
  · rw [Bool.not_eq_true] at hfe
    obtain ⟨t', h⟩ := verify_loop_ok env r (detect_partition_images env) t
    refine ⟨t', ?_⟩
    simp [hfe, h]

theorem get_key_ok_detect {r : Rebuilder} {alg : Option String}
    {key : String} (h : get_key_for_algorithm r alg = Except.ok key) :
    ∃ t, detect_required_key_type alg = Except.ok t := by
  unfold get_key_for_algorithm at h
  cases hd : detect_required_key_type alg with
  | error c => rw [hd] at h; cases h
  | ok t => exact ⟨t, rfl⟩

theorem detect_ok_algorithm_isSome {alg : Option String} {t : String}
    (h : detect_required_key_type alg = Except.ok t) :
    ∃ a, alg = some a := by
  unfold detect_required_key_type at h
  by_cases h1 : alg = some "SHA256_RSA4096" ∨ alg = some "SHA512_RSA4096"
  · rcases h1 with h1 | h1 <;> exact ⟨_, h1⟩
  · rw [if_neg h1] at h
    by_cases h2 : alg = some "SHA256_RSA2048" ∨ alg = some "SHA512_RSA2048"
    · rcases h2 with h2 | h2 <;> exact ⟨_, h2⟩
    · rw [if_neg h2] at h
      cases h

theorem include_foldl_allSome (paths : List String) :
    ∀ (acc : Cmd), acc.all Option.isSome = true →
      (paths.foldl (fun acc p =>
        acc ++ [some "--include_descriptors_from_image", some p]) acc).all
        Option.isSome = true := by
  induction paths with
  | nil => intro acc h; simpa using h
  | cons p rest ih =>
    intro acc h
    simp only [List.foldl_cons]
    refine ih _ ?_
    simp [List.all_append, h]

theorem make_vbmeta_cmd_allSome (r : Rebuilder) (a rbi fl key : String)
    (paths : List String) :
    (make_vbmeta_cmd r (some a) (some rbi) (some fl) key paths).all
      Option.isSome = true := by
  simp [make_vbmeta_cmd, List.all_append,
    include_foldl_allSome paths [] rfl]

/-- Claim C3 (amended): mere failures of the umbrella rebuild are warnings
only, universally.  (1) For every environment, rebuilder and run that
reaches the umbrella step — regular partitions present, non-chained mode,
every loop completing without a crash — with at least one successfully
rebuilt partition, the run reports overall success whatever boolean the
umbrella step returned: its outcome only selects a warning message.
(2) When the vbmeta re-parse yields nothing, `rebuild_vbmeta` returns
`False` (a failure, not a crash).  (3) When vbmeta parses, key selection
succeeds, the assembled `make_vbmeta_image` command is well-formed and its
subprocess fails, `rebuild_vbmeta` likewise returns `False`.  (The process
can still be terminated from inside the umbrella rebuild by key selection
or absent vbmeta fields, per the counterexample.) -/
theorem C3_umbrella_warning_only (env : Env) (r : Rebuilder) :
    (∀ (chained regular : List (String × String)) (uos : Bool)
      (sc1 sc2 : Nat) (b : Bool) (t0 t1 t2 t3 : Trace),
      regular ≠ [] →
      run_partitions env r chained (some emptyImageInfo) uos 0 t0
        = (Except.ok sc1, t1) →
      run_partitions env r regular (parse_image_result env r "vbmeta.img")
        uos sc1 (t1 ++ [info_image_cmd r "vbmeta.img"])
        = (Except.ok sc2, t2) →
      sc2 ≠ 0 →
      rebuild_vbmeta env r (dictOfPairs regular) t2 = (Except.ok b, t3) →
      ∃ tf, rebuild_all_main env r chained regular uos false t0
        = (Except.ok true, tf))
    ∧ (parse_image_result env r "vbmeta.img" = none →
      ∀ (pi : List (String × String)) (t : Trace),
      rebuild_vbmeta env r pi t
        = (Except.ok false, t ++ [info_image_cmd r "vbmeta.img"]))
    ∧ (∀ (info : ImageInfo) (key rbi fl : String)
        (pi : List (String × String)) (t : Trace),
      parse_image_result env r "vbmeta.img" = some info →
      get_key_for_algorithm r info.algorithm = Except.ok key →
      info.rollback_index = some rbi →
      info.flags = some fl →
      env.runOk (make_vbmeta_cmd r info.algorithm info.rollback_index
        info.flags key ((pi.filter (fun e => env.fileExists e.2)).map
          (fun e => e.2))) = false →
      rebuild_vbmeta env r pi t
        = (Except.ok false,
           (t ++ [info_image_cmd r "vbmeta.img"])
             ++ [make_vbmeta_cmd r info.algorithm info.rollback_index
               info.flags key ((pi.filter (fun e => env.fileExists e.2)).map
                 (fun e => e.2))])) := by
  refine ⟨?_, ?_, ?_⟩
  · intro chained regular uos sc1 sc2 b t0 t1 t2 t3 hreg h1 h2 hsc h3
    have hregE : regular.isEmpty = false := by
      cases regular with
      | nil => exact absurd rfl hreg
      | cons a l => rfl
    obtain ⟨t4, hver⟩ := verify_result_ok env r t3
    refine ⟨t4, ?_⟩
    simp [rebuild_all_main, run_bind_apply, h1, hregE,
      parse_image_info_apply, h2, h3, hsc, hver, run_pure_apply]
  · intro hnone pi t
    simp [rebuild_vbmeta, run_bind_apply, parse_image_info_apply, hnone,
      run_pure_apply]
  · intro info key rbi fl pi t hparse hkey hrbi hfl hrun
    obtain ⟨ktype, hdet⟩ := get_key_ok_detect hkey
    obtain ⟨a, halg⟩ := detect_ok_algorithm_isSome hdet
    have hall : (make_vbmeta_cmd r info.algorithm info.rollback_index
        info.flags key ((pi.filter (fun e => env.fileExists e.2)).map
          (fun e => e.2))).all Option.isSome = true := by
      rw [halg, hrbi, hfl]
      exact make_vbmeta_cmd_allSome r a rbi fl key _
    simp [rebuild_vbmeta, run_bind_apply, parse_image_info_apply, hparse,
      hkey, liftE_apply, run_command_allSome env _ hall, hrun,
      run_pure_apply]

/-- Witness for the amended C3: part (1) at a concrete one-partition run
whose `make_vbmeta_image` subprocess fails (umbrella outcome `false`), the
run still succeeding; part (2) at an environment whose vbmeta stdout is
empty, the umbrella step returning `False` rather than crashing. -/
theorem C3_umbrella_warning_only_witness :
    (∃ tf, rebuild_all_main (envC3u false) rAuto4096 []
      [("boot", "boot.img")] false false [] = (Except.ok true, tf))
    ∧ rebuild_vbmeta envPlain rAuto4096 [] []
      = (Except.ok false, [info_image_cmd rAuto4096 "vbmeta.img"]) :=
  ⟨(C3_umbrella_warning_only (envC3u false) rAuto4096).1 []
      [("boot", "boot.img")] false 0 1 false [] [] _ _ (by simp) rfl rfl
      (by simp) rfl,
   (C3_umbrella_warning_only envPlain rAuto4096).2.1 rfl [] []⟩

/-! ## Helper lemmas: descriptor-block splitting -/

theorem trySplitMarker_label {s : List Char} {label : String}
    {after : List Char} (h : trySplitMarker s = some (label, after)) :
    label ∈ fourLabels := by
  unfold trySplitMarker at h
  cases hf : descMarkers.find? (fun m => startsWithL s m.1.data) with
  | none => rw [hf] at h; cases h
  | some m =>
    rw [hf] at h
    cases h
    have hm := List.mem_of_find?_eq_some hf
    fin_cases hm <;> simp [fourLabels]

theorem splitDescAux_labels : ∀ (fuel : Nat) (s : List Char)
    (cur : Option (String × List Char)),
    (splitDescAux fuel s cur).map Prod.fst
      = curLabels cur ++ descriptorBlockLabels fuel s := by
  intro fuel
  induction fuel with
  | zero =>
    intro s cur
    cases s with
    | nil =>
      cases cur with
      | none => simp [splitDescAux, descriptorBlockLabels, closeCur, curLabels]
      | some lc =>
        obtain ⟨l, rc⟩ := lc
        simp [splitDescAux, descriptorBlockLabels, closeCur, curLabels]
    | cons c rest =>
      cases cur with
      | none => simp [splitDescAux, descriptorBlockLabels, closeCur, curLabels]
      | some lc =>
        obtain ⟨l, rc⟩ := lc
        simp [splitDescAux, descriptorBlockLabels, closeCur, curLabels]
  | succ fuel ih =>
    intro s cur
    cases s with
    | nil =>
      cases cur with
      | none => simp [splitDescAux, descriptorBlockLabels, closeCur, curLabels]
      | some lc =>
        obtain ⟨l, rc⟩ := lc
        simp [splitDescAux, descriptorBlockLabels, closeCur, curLabels]
    | cons c rest =>
      cases hm : trySplitMarker (c :: rest) with
      | some lp =>
        obtain ⟨label, after⟩ := lp
        cases cur with
        | none =>
          simp [splitDescAux, descriptorBlockLabels, hm, ih, closeCur,
            curLabels]
        | some lc =>
          obtain ⟨l, rc⟩ := lc
          simp [splitDescAux, descriptorBlockLabels, hm, ih, closeCur,
            curLabels]
      | none =>
        cases cur with
        | none =>
          simp [splitDescAux, descriptorBlockLabels, hm, ih, curLabels]
        | some lc =>
          obtain ⟨l, rc⟩ := lc
          simp [splitDescAux, descriptorBlockLabels, hm, ih, closeCur,
            curLabels]

theorem splitDescAux_label_mem : ∀ (fuel : Nat) (s : List Char)
    (cur : Option (String × List Char)),
    (∀ l c, cur = some (l, c) → l ∈ fourLabels) →
    ∀ b ∈ splitDescAux fuel s cur, b.1 ∈ fourLabels := by
  intro fuel
  induction fuel with
  | zero =>
    intro s cur hcur b hb
    cases s with
    | nil =>
      cases cur with
      | none => simp [splitDescAux, closeCur] at hb
      | some lc =>
        obtain ⟨l, rc⟩ := lc
        simp only [splitDescAux, closeCur, List.mem_singleton] at hb
        subst hb
        exact hcur l rc rfl
    | cons c rest =>
      cases cur with
      | none => simp [splitDescAux, closeCur] at hb
      | some lc =>
        obtain ⟨l, rc⟩ := lc
        simp only [splitDescAux, closeCur, List.mem_singleton] at hb
        subst hb
        exact hcur l rc rfl
  | succ fuel ih =>
    intro s cur hcur b hb
    cases s with
    | nil =>
      cases cur with
      | none => simp [splitDescAux, closeCur] at hb
      | some lc =>
        obtain ⟨l, rc⟩ := lc
        simp only [splitDescAux, closeCur, List.mem_singleton] at hb
        subst hb
        exact hcur l rc rfl
    | cons c rest =>
      cases hm : trySplitMarker (c :: rest) with
      | some lp =>
        obtain ⟨label, after⟩ := lp
        simp only [splitDescAux, hm, List.mem_append] at hb
        rcases hb with hb | hb
        · cases cur with
          | none => simp [closeCur] at hb
          | some lc =>
            obtain ⟨l, rc⟩ := lc
            simp only [closeCur, List.mem_singleton] at hb
            subst hb
            exact hcur l rc rfl
        · refine ih after (some (label, [])) ?_ b hb
          intro l c hl
          cases hl
          exact trySplitMarker_label hm
      | none =>
        cases cur with
        | none =>
          simp only [splitDescAux, hm] at hb
          exact ih rest none (by intro l c hl; cases hl) b hb
        | some lc =>
          obtain ⟨l, rc⟩ := lc
          simp only [splitDescAux, hm] at hb
          refine ih rest (some (l, rc ++ [c])) ?_ b hb
          intro l' c' hl
          cases hl
          exact hcur l rc rfl

theorem parseDescriptors_foldl_tags (blocks : List (String × String))
    (hb : ∀ b ∈ blocks, b.1 ∈ fourLabels) :
    ∀ acc : List Descriptor,
      (blocks.foldl
        (fun acc b =>
          if b.1 = "Hash descriptor" then
            acc ++ [Descriptor.hash (_parse_hash_descriptor b.2.data)]
          else if b.1 = "Hashtree descriptor" then
            acc ++ [Descriptor.hashtree (_parse_hashtree_descriptor b.2.data)]
          else if b.1 = "Chain Partition descriptor" then
            acc ++ [Descriptor.chain (_parse_chain_descriptor b.2.data)]
          else if b.1 = "Prop" then
            acc ++ [Descriptor.prop (_parse_prop_descriptor b.2.data)]
          else acc)
        acc).map descVariantLabel
      = acc.map descVariantLabel ++ blocks.map Prod.fst := by
  induction blocks with
  | nil => intro acc; simp
  | cons b rest ih =>
    intro acc
    have hb1 : b.1 ∈ fourLabels := hb b (by simp)
    have hrest : ∀ x ∈ rest, x.1 ∈ fourLabels :=
      fun x hx => hb x (by simp [hx])
    simp only [List.foldl_cons]
    simp only [fourLabels, List.mem_cons, List.mem_singleton,
      List.not_mem_nil, or_false] at hb1
    rcases hb1 with h1 | h1 | h1 | h1 <;>
      simp [h1, ih hrest, descVariantLabel]

/-! ## Claim C8 -/

/-- Claim C8: for every report text, `_parse_descriptors` returns exactly
one descriptor record per descriptor block (as located by the
marker scan `descriptorBlockLabels`), tagged with the variant matching the
block's introducing label, in text order; in particular the number of
records equals the number of blocks. -/
theorem C8_parser_descriptor_blocks (output : String) :
    (_parse_descriptors output.data).map descVariantLabel
      = descriptorBlockLabels output.data.length output.data
    ∧ (_parse_descriptors output.data).length
      = (descriptorBlockLabels output.data.length output.data).length := by
  have hmem : ∀ b ∈ splitDescAux output.data.length output.data none,
      b.1 ∈ fourLabels :=
    splitDescAux_label_mem _ _ none (by intro l c h; cases h)
  have h1 : (_parse_descriptors output.data).map descVariantLabel
      = (splitDescAux output.data.length output.data none).map Prod.fst := by
    unfold _parse_descriptors
    simpa using parseDescriptors_foldl_tags _ hmem []
  have h2 := splitDescAux_labels output.data.length output.data none
  have hmain : (_parse_descriptors output.data).map descVariantLabel
      = descriptorBlockLabels output.data.length output.data := by
    rw [h1, h2]
    simp [curLabels]
  refine ⟨hmain, ?_⟩
  have := congrArg List.length hmain
  simpa using this

/-! ## Claim C1 -/

/-- Claim C1: zero-salt asymmetry.  With salt reuse enabled and the last
Hash descriptor matching the partition name carrying a non-empty, all-zero
salt, the chained plan's `--salt` extension (source lines 307-308) is
empty — no `--salt` argument reaches the signer — while the regular plan
still forwards that salt verbatim: the value placed after `--salt` in the
regular command (`regularFinalSalt` of the loop's final state) is exactly
the all-zero string. -/
theorem C1_zero_salt_asymmetry (env : Env) (pname : String)
    (info : ImageInfo) (d : HashDesc) (s : String) (st : RegState)
    (hd : findLastHashDesc pname info.descriptors = some d)
    (hs : d.salt = some s) (hne : s ≠ "") (hz : allZeroDigits s = true)
    (hloop : regularHashLoop pname true info.descriptors (none, "NONE", [])
      = Except.ok st) :
    chainedSaltArgs (chainedSalt (findLastHashDesc pname info.descriptors)
      true) = []
    ∧ regularFinalSalt env st.1 = s := by
  constructor
  · rw [hd]
    have hzs : s = zeroStringOfLength s.data.length :=
      allZeroDigits_eq_zeroString hz
    simp only [chainedSalt, hs, chainedSaltArgs]
    rw [← hzs]
    simp
  · obtain ⟨ha, s', hha, hs', h1, h2⟩ :=
      regularHashLoop_lastMatch pname info.descriptors _ st d hloop hd
    rw [hs] at hs'
    cases hs'
    rw [h1]
    simp [regularFinalSalt, hne]

/-- Witness for C1 at a concrete all-zero salt "00000000". -/
theorem C1_zero_salt_asymmetry_witness :
    chainedSaltArgs (chainedSalt (findLastHashDesc "boot"
      infoZeroSalt.descriptors) true) = []
    ∧ regularFinalSalt envPlain
      (((some "00000000" : Option String), "NONE",
        ([] : List String)) : RegState).1 = "00000000" :=
  C1_zero_salt_asymmetry envPlain "boot" infoZeroSalt hdZeroSalt "00000000"
    (some "00000000", "NONE", []) rfl rfl (by decide) (by decide) rfl

/-! ## Claim C4 -/

/-- Claim C4 is violated by the code (code bug): with salt reuse enabled,
planning a regular partition whose matching Hash descriptor has an absent
salt raises TypeError (`salt[:16]` on `None`, line 341) instead of
generating a fresh salt; and planning a chained partition whose rollback
index is absent raises TypeError (`' '.join(cmd)` over a `None` element,
line 21) instead of completing.  Both evaluations below crash; the spec
says absent fields must be treated as "unknown", never as errors. -/
theorem C4_absent_fields_crash :
    (_rebuild_hash_partition envPlain rAuto2048 "boot" "boot.img" 100 none
      (some infoNoSalt) true) [] = (Except.error Crash.typeError, [])
    ∧ (_rebuild_chained_partition envPlain rAuto2048 "boot" "boot.img" 100
      (some "SHA256_RSA2048") none infoChainNoRollback true) []
      = (Except.error Crash.typeError, []) :=
  ⟨rfl, rfl⟩

/-! ## Claim C6 -/

/-- Claim C6, counterexample: a regular partition whose matching Hash
descriptor reads hash algorithm `sha512` gets `--algorithm SHA512` (not
"NONE") in its footer command, refuting "the plan never passes a signing
algorithm other than NONE to the footer step". -/
theorem C6_counterexample :
    traceHasArgPair ((_rebuild_hash_partition envPlain rAuto2048 "boot"
      "boot.img" 100 none (some infoSha512) true) []).2
      "--algorithm" "SHA512" = true
    ∧ traceHasArgPair ((_rebuild_hash_partition envPlain rAuto2048 "boot"
      "boot.img" 100 none (some infoSha512) true) []).2
      "--algorithm" "NONE" = false :=
  ⟨rfl, rfl⟩

/-- Claim C6 (amended): for a regular partition planned with salt reuse,
the footer algorithm is the uppercased hash algorithm of the last matching
Hash descriptor with the single normalization SHA256 → NONE; hence it is
"NONE" exactly when that hash algorithm uppercases to "SHA256", and any
other value (e.g. "SHA512") is passed through to the footer step. -/
theorem C6_regular_footer_algorithm (pname : String)
    (descs : List Descriptor) (st : RegState) (d : HashDesc) (ha : String)
    (hloop : regularHashLoop pname true descs (none, "NONE", [])
      = Except.ok st)
    (hd : findLastHashDesc pname descs = some d)
    (hha : d.hash_algorithm = some ha) :
    st.2.1 = if pyUpper ha = "SHA256" then "NONE" else pyUpper ha := by
  obtain ⟨ha', s', hha', hs', h1, h2⟩ :=
    regularHashLoop_lastMatch pname descs _ st d hloop hd
  rw [hha] at hha'
  cases hha'
  exact h2

/-- Witness for the amended C6 at hash algorithm "sha512". -/
theorem C6_regular_footer_algorithm_witness :
    (((some "ab" : Option String), "SHA512", ([] : List String))
      : RegState).2.1
      = if pyUpper "sha512" = "SHA256" then "NONE" else pyUpper "sha512" :=
  C6_regular_footer_algorithm "boot" infoSha512.descriptors
    (some "ab", "SHA512", []) hdSha512 "sha512" rfl rfl rfl

/-! ## Claim C9 -/

/-- Claim C9: the regular plan reads the metadata's hash algorithm only
when salt reuse is enabled and a matching Hash descriptor exists.  With
salt regeneration requested the footer algorithm is always exactly "NONE"
regardless of the metadata, and likewise when no Hash descriptor matches
the partition name. -/
theorem C9_algorithm_requires_reuse (pname : String)
    (descs : List Descriptor) :
    (∀ st : RegState,
      regularHashLoop pname false descs (none, "NONE", []) = Except.ok st →
      st.2.1 = "NONE")
    ∧ (findLastHashDesc pname descs = none →
      ∀ st : RegState,
      regularHashLoop pname true descs (none, "NONE", []) = Except.ok st →
      st.2.1 = "NONE") := by
  constructor
  · intro st h
    exact (regularHashLoop_regen pname descs _ st h).2
  · intro hf st h
    exact (regularHashLoop_noMatch pname true descs _ st hf h).2

/-- Witness for C9: a matching sha512 descriptor with regeneration
requested, and a prop-only descriptor list with reuse enabled. -/
theorem C9_algorithm_requires_reuse_witness :
    (((none : Option String), "NONE", ([] : List String)) : RegState).2.1
      = "NONE"
    ∧ (((none : Option String), "NONE", ["k:v"]) : RegState).2.1
      = "NONE" :=
  ⟨(C9_algorithm_requires_reuse "boot" [Descriptor.hash hdSha512]).1
      (none, "NONE", []) rfl,
   (C9_algorithm_requires_reuse "boot"
      [Descriptor.prop (some ("k", "v"))]).2 rfl (none, "NONE", ["k:v"]) rfl⟩

/-! ## Claim C10 -/

/-- Claim C10: property-forwarding asymmetry.  The chained plan drops a
Prop descriptor whose key or value is absent or empty and forwards the
rest as `--prop key:value`; the regular plan forwards every Prop
descriptor unconditionally, rendering an absent key or value as the empty
string in the `key:value` argument. -/
theorem C10_prop_forwarding (props : List (Option (String × String)))
    (pname : String) (uos : Bool) (descs : List Descriptor) (st : RegState)
    (hloop : regularHashLoop pname uos descs (none, "NONE", [])
      = Except.ok st) :
    chainedPropArgs props
      = ((props.filter chainedPropKept).map
          (fun p => [some "--prop", some (chainedPropFmt p)])).flatten
    ∧ st.2.2 = descs.filterMap regularPropEntry
    ∧ regularPropArgs st.2.2
      = ((descs.filterMap regularPropEntry).map
          (fun p => [some "--prop", some p])).flatten := by
  have hp := regularHashLoop_props pname uos descs _ st hloop
  have hp' : st.2.2 = descs.filterMap regularPropEntry := by simpa using hp
  exact ⟨chainedPropArgs_spec props, hp',
    by rw [hp', regularPropArgs_spec]⟩

/-- Witness for C10: a kept prop, an empty-key prop and an absent prop on
the chained side; an absent and a present prop descriptor on the regular
side. -/
theorem C10_prop_forwarding_witness :
    chainedPropArgs [some ("k", "v"), some ("", "x"), none]
      = (([some ("k", "v"), some ("", "x"), none].filter
          chainedPropKept).map
          (fun p => [some "--prop", some (chainedPropFmt p)])).flatten
    ∧ (((none : Option String), "NONE", [":", "k:v"]) : RegState).2.2
      = [Descriptor.prop none,
         Descriptor.prop (some ("k", "v"))].filterMap regularPropEntry
    ∧ regularPropArgs
        ((((none : Option String), "NONE", [":", "k:v"]) : RegState)).2.2
      = (([Descriptor.prop none,
           Descriptor.prop (some ("k", "v"))].filterMap
          regularPropEntry).map (fun p => [some "--prop", some p])).flatten :=
  C10_prop_forwarding [some ("k", "v"), some ("", "x"), none] "boot" true
    [Descriptor.prop none, Descriptor.prop (some ("k", "v"))]
    (none, "NONE", [":", "k:v"]) rfl

/-! ## Claim C2 -/

/-- Claim C2, counterexample: with an explicit private key supplied, the
key selector still fails fatally on an algorithm outside the four
recognized SHA*/RSA* names (here "MD5_RSA1024"), because
`detect_required_key_type` runs before the explicit-key override.  The
claim says selection never fails in this situation. -/
theorem C2_counterexample :
    get_key_for_algorithm
      { avbtool_path := "tools/avbtool.py",
        private_key := some "mykey.pem",
        available_keys := ["mykey.pem"] }
      (some "MD5_RSA1024") = Except.error Crash.sysExit := by
  rfl

/-- Claim C2 (amended): if the caller supplied an explicit private key,
the selector returns it unconditionally (its strength is never checked)
for every algorithm among the four recognized names; for any other
algorithm value the selection fails fatally even with the explicit key. -/
theorem C2_explicit_key_override (r : Rebuilder) (alg : Option String)
    (k : String) (hk : r.private_key = some k) :
    (∀ t, detect_required_key_type alg = Except.ok t →
      get_key_for_algorithm r alg = Except.ok k)
    ∧ (∀ c, detect_required_key_type alg = Except.error c →
      get_key_for_algorithm r alg = Except.error c) := by
  constructor
  · intro t ht
    simp only [get_key_for_algorithm, ht, hk]
  · intro c hc
    simp only [get_key_for_algorithm, hc]

/-- Witness for C2's amended theorem: a concrete rebuilder with an
explicit key, applied to a recognized and an unrecognized algorithm. -/
theorem C2_explicit_key_override_witness :
    get_key_for_algorithm
      { avbtool_path := "tools/avbtool.py",
        private_key := some "k.pem",
        available_keys := ["k.pem"] } (some "SHA256_RSA4096")
      = Except.ok "k.pem"
    ∧ get_key_for_algorithm
      { avbtool_path := "tools/avbtool.py",
        private_key := some "k.pem",
        available_keys := ["k.pem"] } (some "NONE")
      = Except.error Crash.sysExit := by
  refine ⟨?_, ?_⟩
  · exact (C2_explicit_key_override _ (some "SHA256_RSA4096") "k.pem" rfl).1
      "4096" rfl
  · exact (C2_explicit_key_override _ (some "NONE") "k.pem" rfl).2
      Crash.sysExit rfl

/-! ## Claim C5 -/

/-- Claim C5: a successfully parsed image classifies as Chained iff its
algorithm field is present, non-empty and different from "NONE"; the
condition used by `rebuild_all` coincides with the one used by
`rebuild_partition`. -/
theorem C5_classification (info : ImageInfo) :
    (classify_is_chained (some info) = true ↔
      ∃ a, info.algorithm = some a ∧ a ≠ "" ∧ a ≠ "NONE")
    ∧ classify_is_chained (some info)
      = rebuild_partition_is_chained (some info) := by
  constructor
  · cases h : info.algorithm with
    | none => simp [classify_is_chained, h]
    | some a =>
      simp only [classify_is_chained, h, Bool.and_eq_true, ne_eq,
        decide_not, Bool.not_eq_true', decide_eq_false_iff_not]
      constructor
      · rintro ⟨h1, h2⟩
        exact ⟨a, rfl, h1, h2⟩
      · rintro ⟨b, hb, h1, h2⟩
        cases hb
        exact ⟨h1, h2⟩
  · rfl

end RebuildAvb
